import Mathlib

/-!
Verification development for the OpenPayAI-Tempo repository.

Shallow embedding of three source layers:

* `OpenPayAI.Backend`  — the Express demo backend `src/backend/server.js`
  (in-memory content registry, license records, the license-check helper and
  the `/api/content/register`, `/api/license/buy`, `/api/license/batch`
  route bodies).
* `OpenPayAI.Contract` — the Solidity contract `src/unnamed/part_001`
  (`registerContent`, `hasValidLicense` and the registry/license storage).
* `OpenPayAI.Agent`    — the agent-side payment orchestrator
  `src/agent/agent.js` (`purchaseLicense`, `purchaseBatch` and the three
  settlement strategies, the rolling daily-spending reset, and the memo
  encoding `_encodeMemo`).

External collaborators are modelled as explicit oracles: the payment rail's
per-transfer and batch outcomes are boolean parameters, and every transfer
submission is recorded in an append-only rail log so that "a transfer was
attempted" is an inspectable fact.  JavaScript `Date.now()` timestamps and
Solidity `block.timestamp` values are `Nat` milliseconds / seconds.
JavaScript `BigInt` amounts are `Nat` (they are only ever added), except
where the source subtracts, which is modelled with `Int` casts.
-/

set_option linter.unusedVariables false
set_option maxRecDepth 100000

namespace OpenPayAI

/-! ### Association-list primitives

`server.js` keeps its stores in JavaScript `Map`s and the contract in
Solidity `mapping`s; both are embedded as association lists with
first-match lookup and insert-or-overwrite update (`Map.set` appends new
keys at the end, which `setKV` mirrors). -/

def lookupKV {κ α : Type} [DecidableEq κ] : List (κ × α) → κ → Option α
  | [], _ => none
  | (k, v) :: rest, key => if k = key then some v else lookupKV rest key

def setKV {κ α : Type} [DecidableEq κ] : List (κ × α) → κ → α → List (κ × α)
  | [], key, value => [(key, value)]
  | (k, v) :: rest, key, value =>
    if k = key then (key, value) :: rest else (k, v) :: setKV rest key value

/-! ### Time constants (milliseconds, as in `Date.now()`) -/

def oneDay : Nat := 24 * 60 * 60 * 1000

def thirtyDays : Nat := 30 * 24 * 60 * 60 * 1000

/-! ### Tracking-tag (memo) encoding — `agent.js` `_encodeMemo`

The source builds `LICENSE:<contentHash.slice(0,20)>:<timestamp>:<index>`,
truncates it to 64 characters, converts it to its UTF-8 byte hex string
(`viem.stringToHex`) and pads it to 32 bytes (`viem.pad` with `size: 32`).
`viem.pad` throws `SizeExceedsPaddingSizeError` whenever the byte string is
longer than 32 bytes, which `encodeMemo` models by returning `none`.  All
memo strings are ASCII, so one character is exactly one UTF-8 byte and
`Char.toNat` of each character is the byte value. -/

def strBytes (s : String) : List Nat := s.data.map Char.toNat

def padLeft32 (bytes : List Nat) : Option (List Nat) :=
  if 32 < bytes.length then none
  else some (List.replicate (32 - bytes.length) 0 ++ bytes)

def encodeMemo (contentHash : String) (timestamp idx : Nat) : Option (List Nat) :=
  let memoStr :=
    "LICENSE:" ++ contentHash.take 20 ++ ":" ++ toString timestamp ++ ":" ++ toString idx
  padLeft32 (strBytes (memoStr.take 64))

namespace Backend

/-! ### Backend data model — `server.js`

A content entry as stored by the `contentRegistry` map, and a license
record as stored by `global.licenses`.  The buy route additionally stores
the raw memo of the notifying agent; it is opaque audit data never read by
any route and is omitted.  Transaction hashes are opaque receipt
identifiers produced by the external rail. -/

structure ContentEntry where
  contentHash : String
  price : Nat
  contentOwner : String
  contentURI : String
  active : Bool
  totalRevenue : Nat
  accessCount : Nat
  createdAt : Nat
deriving DecidableEq

structure LicenseRec where
  agentAddress : String
  contentHash : String
  txHash : String
  pricePaid : Nat
  expiry : Nat
  createdAt : Nat
deriving DecidableEq

structure BackendState where
  contentRegistry : List (String × ContentEntry)
  licenses : List (String × LicenseRec)
deriving DecidableEq

/-- License-store key: the agent address and the content hash joined by a hyphen. -/
def licenseKey (agentAddress contentHash : String) : String :=
  agentAddress ++ "-" ++ contentHash

/-- `server.js` `checkLicense`: returns the stored record iff it exists and
`license.expiry > Date.now()`; the stored records carry no active flag. -/
def checkLicense (st : BackendState) (agentAddress contentHash : String) (now : Nat) :
    Option LicenseRec :=
  match lookupKV st.licenses (licenseKey agentAddress contentHash) with
  | some license => if license.expiry > now then some license else none
  | none => none

/-- `POST /api/content/register` body: after the falsy-field guard
(`!contentHash || !price || ...`, under which a zero price or empty string
is "missing"), the entry is written with `Map.set` — no duplicate check and
no positivity check beyond the guard. -/
def registerContentRoute (st : BackendState) (contentHash : String) (price : Nat)
    (contentURI ownerAddress : String) (now : Nat) : Except String BackendState :=
  if contentHash = "" ∨ price = 0 ∨ contentURI = "" ∨ ownerAddress = "" then
    .error "Missing required fields"
  else
    let entry : ContentEntry :=
      { contentHash := contentHash, price := price, contentOwner := ownerAddress,
        contentURI := contentURI, active := true, totalRevenue := 0, accessCount := 0,
        createdAt := now }
    .ok { st with contentRegistry := setKV st.contentRegistry contentHash entry }

/-- `POST /api/license/buy` body: 404 when the content is unknown; otherwise
overwrites the license with `expiry = Date.now() + 30 days`, then
`content.totalRevenue += content.price` and `content.accessCount++`. -/
def licenseBuy (st : BackendState) (contentHash agentAddress txHash : String) (now : Nat) :
    Except String BackendState :=
  match lookupKV st.contentRegistry contentHash with
  | none => .error "Content not found"
  | some content =>
    let license : LicenseRec :=
      { agentAddress := agentAddress, contentHash := contentHash, txHash := txHash,
        pricePaid := content.price, expiry := now + thirtyDays, createdAt := now }
    let entry : ContentEntry :=
      { content with totalRevenue := content.totalRevenue + content.price,
                     accessCount := content.accessCount + 1 }
    .ok { st with
      licenses := setKV st.licenses (licenseKey agentAddress contentHash) license,
      contentRegistry := setKV st.contentRegistry contentHash entry }

/-- Per-item entry of the batch route's `results` array. -/
structure BatchItemResult where
  contentHash : String
  success : Bool
deriving DecidableEq

/-- Loop body of `POST /api/license/batch`: for each found hash it adds the
price to `totalPrice`, overwrites the license (expiry `now + 30 days`) and
adds the price to `totalRevenue`; unknown hashes get a failure entry.  The
loop does not touch `accessCount`. -/
def licenseBatchGo (st : BackendState) (hashes : List String) (agentAddress txHash : String)
    (now : Nat) : BackendState × List BatchItemResult × Nat :=
  match hashes with
  | [] => (st, [], 0)
  | h :: rest =>
    match lookupKV st.contentRegistry h with
    | some content =>
      let license : LicenseRec :=
        { agentAddress := agentAddress, contentHash := h, txHash := txHash,
          pricePaid := content.price, expiry := now + thirtyDays, createdAt := now }
      let entry : ContentEntry :=
        { content with totalRevenue := content.totalRevenue + content.price }
      let st1 : BackendState :=
        { st with
          licenses := setKV st.licenses (licenseKey agentAddress h) license,
          contentRegistry := setKV st.contentRegistry h entry }
      let r := licenseBatchGo st1 rest agentAddress txHash now
      (r.1, ⟨h, true⟩ :: r.2.1, content.price + r.2.2)
    | none =>
      let r := licenseBatchGo st rest agentAddress txHash now
      (r.1, ⟨h, false⟩ :: r.2.1, r.2.2)

/-- `POST /api/license/batch`: 400 on an empty hash list (or missing
fields), else the loop above. -/
def licenseBatch (st : BackendState) (hashes : List String) (agentAddress txHash : String)
    (now : Nat) : Except String (BackendState × List BatchItemResult × Nat) :=
  if hashes.isEmpty then .error "Invalid content hashes"
  else .ok (licenseBatchGo st hashes agentAddress txHash now)

end Backend

namespace Contract

/-! ### Solidity contract — `src/unnamed/part_001` (`OpenPayAITempo`)

Addresses and `bytes32` content hashes are `Nat`; `0` is `address(0)`.
Solidity mappings return the all-zero struct for absent keys, modelled with
`getD` of a zero record. -/

structure SContentEntry where
  price : Nat
  contentOwner : Nat
  contentURI : String
  active : Bool
  totalRevenue : Nat
  accessCount : Nat
deriving DecidableEq

structure SLicense where
  expiry : Nat
  pricePaid : Nat
  active : Bool
deriving DecidableEq

structure CState where
  contentRegistry : List (Nat × SContentEntry)
  licenses : List ((Nat × Nat) × SLicense)
  creatorContents : List (Nat × List Nat)
deriving DecidableEq

def zeroEntry : SContentEntry :=
  { price := 0, contentOwner := 0, contentURI := "", active := false,
    totalRevenue := 0, accessCount := 0 }

def zeroLicense : SLicense := { expiry := 0, pricePaid := 0, active := false }

def getEntry (st : CState) (contentHash : Nat) : SContentEntry :=
  (lookupKV st.contentRegistry contentHash).getD zeroEntry

def getLicense (st : CState) (user contentHash : Nat) : SLicense :=
  (lookupKV st.licenses (user, contentHash)).getD zeroLicense

inductive RegResult
  | ok
  | alreadyRegistered
  | invalidPrice
deriving DecidableEq

/-- `registerContent`: requires `contentRegistry[contentHash].contentOwner ==
address(0)` ("Content already registered") then `price > 0` ("Price must be
> 0"); a failed `require` reverts, leaving the state unchanged, which the
pair return models explicitly.  `price` is `uint256`, so `price ≤ 0` is
exactly `price = 0`. -/
def registerContent (st : CState) (sender contentHash price : Nat) (contentURI : String) :
    RegResult × CState :=
  if (getEntry st contentHash).contentOwner ≠ 0 then (.alreadyRegistered, st)
  else if price = 0 then (.invalidPrice, st)
  else
    let entry : SContentEntry :=
      { price := price, contentOwner := sender, contentURI := contentURI,
        active := true, totalRevenue := 0, accessCount := 0 }
    (.ok, { st with
      contentRegistry := setKV st.contentRegistry contentHash entry,
      creatorContents := setKV st.creatorContents sender
        (((lookupKV st.creatorContents sender).getD []) ++ [contentHash]) })

/-- `hasValidLicense`: `license.active && license.expiry > block.timestamp`. -/
def hasValidLicense (st : CState) (user contentHash now : Nat) : Bool :=
  (getLicense st user contentHash).active
    && decide ((getLicense st user contentHash).expiry > now)

end Contract

namespace Agent

/-! ### Agent-side payment orchestrator — `agent.js`

The agent's mutable fields (`spentToday`, `lastReset`, `purchaseHistory`)
form `AgentState`.  The orchestrator talks to two external parties:

* the backend, embedded directly — `hasLicense` is
  `GET /api/license/check` (`Backend.checkLicense`), `checkContent` is
  `GET /api/content/:hash` (a registry lookup), and the success
  notifications are `POST /api/license/buy` / `POST /api/license/batch`;
* the payment rail (`client.token.transferSync` / `client.sendTransaction`),
  whose outcomes are boolean oracle parameters and whose submissions are
  appended to the `World.rail` log.  Submission order of the concurrent
  parallel strategy is serialised in item order.

Receipt data (`transactionHash`, `blockNumber`) is opaque output of the
external rail and is represented by the fixed tag `"tx"`; the intra-call
advance of `Date.now()` (a few milliseconds) is abstracted to a single
`now` per top-level call. -/

open Backend

structure AgentConfig where
  address : String
  maxPricePerItem : Nat
  dailySpendingLimit : Nat
  useFeeSponsorship : Bool
  enableBatching : Bool
  enableParallel : Bool
deriving DecidableEq

/-- An entry of `this.purchaseHistory` (the spec's PurchaseRecord). -/
structure PurchaseRecord where
  contentHash : String
  price : Nat
  timestamp : Nat
  memo : List Nat
deriving DecidableEq

structure AgentState where
  spentToday : Nat
  lastReset : Nat
  purchaseHistory : List PurchaseRecord
deriving DecidableEq

/-- Arguments of one `client.token.transferSync` submission (`toAddr` is
the source's `to` field, renamed because `to` is reserved). -/
structure TransferCall where
  toAddr : String
  amount : Nat
  token : String
  memo : List Nat
  feePayer : Bool
  nonceKey : Option Nat
deriving DecidableEq

/-- One element of the `calls` array of the atomic `sendTransaction`
(`toAddr` is the source's `to` field). -/
structure BatchCall where
  toAddr : String
  data : String
deriving DecidableEq

/-- The rail log: every submission to the external payment rail. -/
inductive RailEvent
  | transfer (call : TransferCall)
  | batchTx (calls : List BatchCall) (feePayer : Bool)
deriving DecidableEq

structure World where
  agent : AgentState
  backend : BackendState
  rail : List RailEvent
deriving DecidableEq

/-- `CONFIG.TOKENS.alphaUsd`. -/
def alphaUsd : String := "0x20c0000000000000000000000000000000000001"

/-- `agent.js` `_resetDailySpendingIfNeeded`: resets when
`now - this.lastReset > oneDay` (strict).  Over `Nat`, truncated
subtraction gives the same boolean as the JavaScript number subtraction:
when `now < lastReset` both sides evaluate the guard to false. -/
def resetDailySpendingIfNeeded (a : AgentState) (now : Nat) : AgentState :=
  if now - a.lastReset > oneDay then { a with spentToday := 0, lastReset := now } else a

/-- `agent.js` `_encodeTransferCall`: a literal placeholder. -/
def encodeTransferCall (toAddr : String) (amount : Nat) (memo : List Nat) : String := "0x"

inductive AgentError
  | contentNotFound
  | perItemCeilingExceeded
  | dailyCeilingExceeded
  | memoEncodingFailed
  | transferFailed
  | batchFailed
  | backendError
deriving DecidableEq

/-- Result of a single `purchaseLicense` call: the `{skipped: true}`
return, the `{success: true, purchase}` return, or a thrown error. -/
inductive SingleOutcome
  | skipped
  | success (purchase : PurchaseRecord)
  | err (e : AgentError)
deriving DecidableEq

/-- Oracle inputs of one `purchaseLicense` call: the hash and force flag
supplied by the caller, the call time, and the rail's verdict on the
transfer should one be submitted. -/
structure PurchaseEnv where
  contentHash : String
  force : Bool
  now : Nat
  railOk : Bool

/-- `agent.js` `purchaseLicense`: reset, skip when already licensed (unless
forced), look up the content, enforce `maxPricePerItem` then the daily
limit, encode the memo, submit the transfer, and on success commit
`spentToday`, append the purchase record and notify
`POST /api/license/buy`.  Thrown errors surface as `.err`. -/
def purchaseLicense (cfg : AgentConfig) (w : World) (env : PurchaseEnv) :
    SingleOutcome × World :=
  let a := resetDailySpendingIfNeeded w.agent env.now
  let w1 : World := { w with agent := a }
  let hasLic := (checkLicense w1.backend cfg.address env.contentHash env.now).isSome
  if hasLic && !env.force then (.skipped, w1)
  else
    match lookupKV w1.backend.contentRegistry env.contentHash with
    | none => (.err .contentNotFound, w1)
    | some content =>
      if content.price > cfg.maxPricePerItem then (.err .perItemCeilingExceeded, w1)
      else if a.spentToday + content.price > cfg.dailySpendingLimit then
        (.err .dailyCeilingExceeded, w1)
      else
        match encodeMemo env.contentHash env.now 0 with
        | none => (.err .memoEncodingFailed, w1)
        | some memo =>
          let call : TransferCall :=
            { toAddr := content.contentOwner, amount := content.price, token := alphaUsd,
              memo := memo, feePayer := cfg.useFeeSponsorship, nonceKey := none }
          let w2 : World := { w1 with rail := w1.rail ++ [.transfer call] }
          if !env.railOk then (.err .transferFailed, w2)
          else
            let purchase : PurchaseRecord :=
              { contentHash := env.contentHash, price := content.price,
                timestamp := env.now, memo := memo }
            let a2 : AgentState :=
              { a with spentToday := a.spentToday + content.price,
                       purchaseHistory := a.purchaseHistory ++ [purchase] }
            match licenseBuy w2.backend env.contentHash cfg.address "tx" env.now with
            | .ok b2 => (.success purchase, { w2 with agent := a2, backend := b2 })
            | .error _ => (.err .backendError, { w2 with agent := a2 })

/-- One entry of `purchaseBatch`'s `contentInfos` array. -/
structure ContentInfo where
  hash : String
  price : Nat
  owner : String
deriving DecidableEq

/-- Per-item entry of `_purchaseParallel`'s `purchases` result. -/
structure ItemResult where
  contentHash : String
  price : Nat
  success : Bool
deriving DecidableEq

/-- Aggregate result of `purchaseBatch`, by dispatched strategy. -/
inductive BatchValue
  | skipped
  | parallel (purchases : List ItemResult) (successful failed : Nat)
  | atomic (purchases : List PurchaseRecord) (totalPrice : Nat)
  | sequentialDone (outcomes : List SingleOutcome)
deriving DecidableEq

/-- Item loop of `_purchaseParallel` (serialised in item order): each item
encodes its memo, submits a `transferSync` on nonce lane `index + 1`, and
on rail success adds its price to `spentToday`.  A memo-encoding throw is
a rejected promise: the flag in the second component records it so that
the caller can fail the whole `Promise.all` join, while the remaining
items still run.  `purchaseHistory` is never touched. -/
def runParallelItems (cfg : AgentConfig) :
    World → List ContentInfo → Nat → Nat → (Nat → Bool) →
    List ItemResult × Bool × World
  | w, [], _, _, _ => ([], false, w)
  | w, info :: rest, now, idx, oks =>
    match encodeMemo info.hash now idx with
    | none =>
      let r := runParallelItems cfg w rest now (idx + 1) oks
      (r.1, true, r.2.2)
    | some memo =>
      let call : TransferCall :=
        { toAddr := info.owner, amount := info.price, token := alphaUsd,
          memo := memo, feePayer := cfg.useFeeSponsorship, nonceKey := some (idx + 1) }
      let w1 : World := { w with rail := w.rail ++ [.transfer call] }
      if oks idx then
        let w2 : World :=
          { w1 with agent :=
              { w1.agent with spentToday := w1.agent.spentToday + info.price } }
        let r := runParallelItems cfg w2 rest now (idx + 1) oks
        (⟨info.hash, info.price, true⟩ :: r.1, r.2.1, r.2.2)
      else
        let r := runParallelItems cfg w1 rest now (idx + 1) oks
        (⟨info.hash, info.price, false⟩ :: r.1, r.2.1, r.2.2)

/-- `agent.js` `_purchaseParallel`: run all items, join, then notify
`POST /api/license/batch` with the successful hashes (when any), and
return per-item results with `successful`/`failed` counts. -/
def purchaseParallel (cfg : AgentConfig) (w : World) (infos : List ContentInfo)
    (now : Nat) (oks : Nat → Bool) : Except AgentError BatchValue × World :=
  let r := runParallelItems cfg w infos now 0 oks
  let results := r.1
  let memoFailed := r.2.1
  let w1 := r.2.2
  if memoFailed then (.error .memoEncodingFailed, w1)
  else
    let successes := results.filter (·.success)
    if successes.isEmpty then
      (.ok (.parallel results successes.length (infos.length - successes.length)), w1)
    else
      match licenseBatch w1.backend (successes.map (·.contentHash)) cfg.address "tx" now with
      | .ok res =>
        (.ok (.parallel results successes.length (infos.length - successes.length)),
         { w1 with backend := res.1 })
      | .error _ => (.error .backendError, w1)

/-- Memos of an atomic batch, item index increasing from `i`. -/
def encodeMemosFrom : List ContentInfo → Nat → Nat → Option (List (List Nat))
  | [], _, _ => some []
  | info :: rest, now, i =>
    match encodeMemo info.hash now i, encodeMemosFrom rest now (i + 1) with
    | some m, some ms => some (m :: ms)
    | _, _ => none

/-- `agent.js` `_purchaseBatchAtomic`: encode every memo, submit one
all-or-nothing `sendTransaction` bundling the per-item calls, and throw
`Batch transaction failed` when the receipt is unsuccessful; only on a
confirmed receipt commit `spentToday += totalPrice`, append all purchase
records and notify `POST /api/license/batch`. -/
def purchaseBatchAtomic (cfg : AgentConfig) (w : World) (infos : List ContentInfo)
    (now : Nat) (batchOk : Bool) : Except AgentError BatchValue × World :=
  match encodeMemosFrom infos now 0 with
  | none => (.error .memoEncodingFailed, w)
  | some memos =>
    let calls := (infos.zip memos).map fun p =>
      BatchCall.mk alphaUsd (encodeTransferCall p.1.owner p.1.price p.2)
    let w1 : World := { w with rail := w.rail ++ [.batchTx calls cfg.useFeeSponsorship] }
    if !batchOk then (.error .batchFailed, w1)
    else
      let totalPrice := (infos.map (·.price)).sum
      let purchases := (infos.zip memos).map fun p =>
        PurchaseRecord.mk p.1.hash p.1.price now p.2
      let a2 : AgentState :=
        { w1.agent with spentToday := w1.agent.spentToday + totalPrice,
                        purchaseHistory := w1.agent.purchaseHistory ++ purchases }
      match licenseBatch w1.backend (infos.map (·.hash)) cfg.address "tx" now with
      | .ok res => (.ok (.atomic purchases totalPrice), { w1 with agent := a2, backend := res.1 })
      | .error _ => (.error .backendError, { w1 with agent := a2 })

/-- Per-item oracle inputs of the sequential loop. -/
structure SeqItem where
  contentHash : String
  now : Nat
  railOk : Bool

/-- `_purchaseSequential` calls `purchaseLicense(info.hash)` with default
options, so `force` is false. -/
def seqEnv (it : SeqItem) : PurchaseEnv :=
  { contentHash := it.contentHash, force := false, now := it.now, railOk := it.railOk }

/-- `agent.js` `_purchaseSequential`: awaits `purchaseLicense` per item in
order, pushing each returned value; a thrown error propagates out of the
loop immediately, abandoning the items not yet processed. -/
def purchaseSequential (cfg : AgentConfig) :
    World → List SeqItem → Except AgentError (List SingleOutcome) × World
  | w, [] => (.ok [], w)
  | w, it :: rest =>
    match purchaseLicense cfg w (seqEnv it) with
    | (.err e, w1) => (.error e, w1)
    | (o, w1) =>
      match purchaseSequential cfg w1 rest with
      | (.ok os, w2) => (.ok (o :: os), w2)
      | (.error e, w2) => (.error e, w2)

/-- Oracle inputs of one `purchaseBatch` call: caller arguments, call time,
the rail's per-item verdicts (`oks`, indexed by position in
`contentInfos`) and its verdict on an atomic submission. -/
structure BatchEnv where
  hashes : List String
  force : Bool
  atomic : Bool
  now : Nat
  oks : Nat → Bool
  batchOk : Bool

/-- The `toPurchase` filter of `purchaseBatch`: keep hashes with
`!hasLicense || options.force`. -/
def batchToPurchase (cfg : AgentConfig) (b : BackendState) (env : BatchEnv) : List String :=
  env.hashes.filter fun h => !((checkLicense b cfg.address h env.now).isSome) || env.force

/-- The `contentInfos` loop of `purchaseBatch`: look up each hash, keeping
price and owner; hashes whose lookup fails are dropped silently. -/
def batchInfos (b : BackendState) (hashes : List String) : List ContentInfo :=
  hashes.filterMap fun h =>
    (lookupKV b.contentRegistry h).map fun c => ⟨h, c.price, c.contentOwner⟩

/-- Sequential-fallback item environments, in `contentInfos` order. -/
def seqItems (env : BatchEnv) (infos : List ContentInfo) : List SeqItem :=
  infos.enum.map fun p => ⟨p.2.hash, env.now, env.oks p.1⟩

/-- `agent.js` `purchaseBatch`: reset, filter licensed hashes, return
`skipped` when nothing remains, price the rest, enforce
`totalPrice > dailySpendingLimit - spentToday` (a `BigInt` comparison,
hence the `Int` casts), and dispatch: parallel when `enableParallel` and
not `options.atomic`, else the atomic batch when `enableBatching`, else
the sequential fallback. -/
def purchaseBatch (cfg : AgentConfig) (w : World) (env : BatchEnv) :
    Except AgentError BatchValue × World :=
  let a := resetDailySpendingIfNeeded w.agent env.now
  let w1 : World := { w with agent := a }
  let toPurchase := batchToPurchase cfg w1.backend env
  if toPurchase.isEmpty then (.ok .skipped, w1)
  else
    let infos := batchInfos w1.backend toPurchase
    let totalPrice := (infos.map (·.price)).sum
    if Int.ofNat totalPrice > Int.ofNat cfg.dailySpendingLimit - Int.ofNat a.spentToday then
      (.error .dailyCeilingExceeded, w1)
    else if cfg.enableParallel && !env.atomic then
      purchaseParallel cfg w1 infos env.now env.oks
    else if cfg.enableBatching then
      purchaseBatchAtomic cfg w1 infos env.now env.batchOk
    else
      let r := purchaseSequential cfg w1 (seqItems env infos)
      (r.1.map .sequentialDone, r.2)

/-- A top-level orchestrator call, for stating multi-call invariants. -/
inductive AgentCall
  | single (env : PurchaseEnv)
  | batch (env : BatchEnv)

def runCall (cfg : AgentConfig) (w : World) : AgentCall → World
  | .single env => (purchaseLicense cfg w env).2
  | .batch env => (purchaseBatch cfg w env).2

def runCalls (cfg : AgentConfig) (w : World) (calls : List AgentCall) : World :=
  calls.foldl (runCall cfg) w

/-- Amounts of the single-transfer submissions in a rail log, in order. -/
def railTransferAmounts (events : List RailEvent) : List Nat :=
  events.filterMap fun e =>
    match e with
    | .transfer call => some call.amount
    | .batchTx _ _ => none

end Agent

/-! ### Concrete scenario states

Closed states and environments used by the counterexample and witness
theorems below.  Prices are in the smallest currency unit, timestamps in
milliseconds. -/

section Scenarios

open Backend Contract Agent

/-- A fresh agent (`spentToday = 0`, empty history) with `lastReset = 0`. -/
def freshAgent : AgentState := { spentToday := 0, lastReset := 0, purchaseHistory := [] }

/-- One registered content entry, price 70 already earned. -/
def regBackendC3 : BackendState :=
  { contentRegistry := [("h", ⟨"h", 9, "o", "u", true, 70, 3, 0⟩)], licenses := [] }

/-- Contract state with content hash 7 registered to owner 2 at price 5. -/
def contractStateC3 : CState :=
  { contentRegistry := [(7, ⟨5, 2, "u", true, 0, 0⟩)], licenses := [], creatorContents := [] }

/-- Contract state with an active license for user 1 on hash 7 expiring at 100. -/
def contractStateC4 : CState :=
  { contentRegistry := [], licenses := [((1, 7), ⟨100, 5, true⟩)], creatorContents := [] }

/-- Agent config with a 10-unit per-item ceiling and a huge daily limit. -/
def cfgC5 : AgentConfig :=
  { address := "A", maxPricePerItem := 10, dailySpendingLimit := 1000000,
    useFeeSponsorship := true, enableBatching := true, enableParallel := true }

/-- World with one content priced 500 — far above `cfgC5`'s per-item ceiling. -/
def worldC5 : World :=
  { agent := freshAgent,
    backend := { contentRegistry := [("h1", ⟨"h1", 500, "o", "u", true, 0, 0, 0⟩)],
                 licenses := [] },
    rail := [] }

/-- A one-item batch taking the parallel strategy, rail accepting everything. -/
def envC5 : BatchEnv :=
  { hashes := ["h1"], force := false, atomic := false, now := 0,
    oks := fun _ => true, batchOk := true }

/-- Agent config that forces the sequential fallback strategy. -/
def cfgC7 : AgentConfig :=
  { address := "A", maxPricePerItem := 100, dailySpendingLimit := 1000,
    useFeeSponsorship := true, enableBatching := false, enableParallel := false }

/-- World with two contents, both priced 10. -/
def worldC7 : World :=
  { agent := freshAgent,
    backend := { contentRegistry := [("h1", ⟨"h1", 10, "o", "u", true, 0, 0, 0⟩),
                                     ("h2", ⟨"h2", 10, "o", "u", true, 0, 0, 0⟩)],
                 licenses := [] },
    rail := [] }

/-- First sequential item: the rail rejects its transfer. -/
def itemAC7 : SeqItem := ⟨"h1", 0, false⟩

/-- Second sequential item: the rail would accept its transfer. -/
def itemBC7 : SeqItem := ⟨"h2", 0, true⟩

/-- Agent config for the 5-item parallel scenario. -/
def cfgC8 : AgentConfig :=
  { address := "A", maxPricePerItem := 100, dailySpendingLimit := 1000,
    useFeeSponsorship := true, enableBatching := true, enableParallel := true }

/-- Registry of five contents priced 10 each. -/
def registryC8 : List (String × ContentEntry) :=
  [("h1", ⟨"h1", 10, "o", "u", true, 0, 0, 0⟩),
   ("h2", ⟨"h2", 10, "o", "u", true, 0, 0, 0⟩),
   ("h3", ⟨"h3", 10, "o", "u", true, 0, 0, 0⟩),
   ("h4", ⟨"h4", 10, "o", "u", true, 0, 0, 0⟩),
   ("h5", ⟨"h5", 10, "o", "u", true, 0, 0, 0⟩)]

/-- World with five contents priced 10 each. -/
def worldC8 : World :=
  { agent := freshAgent,
    backend := { contentRegistry := registryC8, licenses := [] },
    rail := [] }

/-- Five-item parallel batch in which the rail rejects exactly item 3
(index 2). -/
def envC8 : BatchEnv :=
  { hashes := ["h1", "h2", "h3", "h4", "h5"], force := false, atomic := false, now := 0,
    oks := fun i => decide (i ≠ 2), batchOk := true }

/-- Backend with one content at price 50, no revenue and no accesses yet. -/
def backendC9 : BackendState :=
  { contentRegistry := [("h", ⟨"h", 50, "o", "u", true, 0, 0, 0⟩)], licenses := [] }

/-- World and single call used by the C2 witness: one content priced 10,
one successful purchase. -/
def worldC2 : World :=
  { agent := freshAgent,
    backend := { contentRegistry := [("h1", ⟨"h1", 10, "o", "u", true, 0, 0, 0⟩)],
                 licenses := [] },
    rail := [] }

def cfgC2 : AgentConfig :=
  { address := "A", maxPricePerItem := 100, dailySpendingLimit := 1000,
    useFeeSponsorship := true, enableBatching := true, enableParallel := true }

def callsC2 : List AgentCall := [.single ⟨"h1", false, 0, true⟩]

/-- An empty backend store. -/
def emptyBackend : BackendState := { contentRegistry := [], licenses := [] }

end Scenarios

/-! ### General lemmas -/

theorem lookupKV_setKV_self {κ α : Type} [DecidableEq κ]
    (l : List (κ × α)) (key : κ) (value : α) :
    lookupKV (setKV l key value) key = some value := by
  induction l with
  | nil => simp [setKV, lookupKV]
  | cons p rest ih =>
    obtain ⟨k, v⟩ := p
    by_cases h : k = key
    · simp [setKV, lookupKV, h]
    · simp [setKV, lookupKV, h, ih]

namespace Agent

/- `encodeMemo` is kept opaque while reasoning symbolically: its value is
irrelevant to these lemmas, and elaborator-level reduction of its string
arithmetic on open terms is prohibitively slow.  The attribute is local;
closed-term theorems below still evaluate it (in the kernel). -/
attribute [local irreducible] encodeMemo

theorem resetDaily_spentToday_le {a : AgentState} {limit : Nat} (now : Nat)
    (h : a.spentToday ≤ limit) :
    (resetDailySpendingIfNeeded a now).spentToday ≤ limit := by
  unfold resetDailySpendingIfNeeded
  split
  · exact Nat.zero_le _
  · exact h

theorem resetDaily_history (a : AgentState) (now : Nat) :
    (resetDailySpendingIfNeeded a now).purchaseHistory = a.purchaseHistory := by
  unfold resetDailySpendingIfNeeded
  split <;> rfl

set_option maxHeartbeats 1000000 in
/-- Every branch of `purchaseLicense` keeps `spentToday` within the daily
limit: the daily guard sits in front of the only branch that adds to it. -/
theorem purchaseLicense_spentToday_le (cfg : AgentConfig) (w : World) (env : PurchaseEnv)
    (h : w.agent.spentToday ≤ cfg.dailySpendingLimit) :
    (purchaseLicense cfg w env).2.agent.spentToday ≤ cfg.dailySpendingLimit := by
  have hr : (resetDailySpendingIfNeeded w.agent env.now).spentToday ≤ cfg.dailySpendingLimit :=
    resetDaily_spentToday_le env.now h
  unfold purchaseLicense
  dsimp only
  split
  · exact hr
  · split
    · exact hr
    · split
      · exact hr
      · split
        · exact hr
        · split
          · exact hr
          · split
            · exact hr
            · split <;> dsimp only <;> omega

/-- The sequential loop preserves the daily-limit invariant, item by item. -/
theorem purchaseSequential_spentToday_le (cfg : AgentConfig) (items : List SeqItem) :
    ∀ w : World, w.agent.spentToday ≤ cfg.dailySpendingLimit →
      (purchaseSequential cfg w items).2.agent.spentToday ≤ cfg.dailySpendingLimit := by
  induction items with
  | nil =>
    intro w h
    simpa [purchaseSequential] using h
  | cons it rest ih =>
    intro w h
    have h1 := purchaseLicense_spentToday_le cfg w (seqEnv it) h
    simp only [purchaseSequential]
    rcases hp : purchaseLicense cfg w (seqEnv it) with ⟨o, w1⟩
    rw [hp] at h1
    cases o with
    | err e => simpa using h1
    | skipped =>
      have h2 := ih w1 h1
      rcases hq : purchaseSequential cfg w1 rest with ⟨r2, w2⟩
      rw [hq] at h2
      cases r2 <;> simpa [hq] using h2
    | success p =>
      have h2 := ih w1 h1
      rcases hq : purchaseSequential cfg w1 rest with ⟨r2, w2⟩
      rw [hq] at h2
      cases r2 <;> simpa [hq] using h2

/-- The parallel item loop adds at most the total price of its items to
`spentToday` (only rail-accepted items add their price). -/
theorem runParallelItems_spentToday_le (cfg : AgentConfig) (infos : List ContentInfo) :
    ∀ (w : World) (now idx : Nat) (oks : Nat → Bool),
      (runParallelItems cfg w infos now idx oks).2.2.agent.spentToday ≤
        w.agent.spentToday + (infos.map (·.price)).sum := by
  induction infos with
  | nil =>
    intro w now idx oks
    exact Nat.le_refl _
  | cons info rest ih =>
    intro w now idx oks
    rw [runParallelItems.eq_def]
    dsimp only [List.map_cons, List.sum_cons]
    split
    · refine le_trans (ih _ now (idx + 1) oks) ?_
      dsimp only
      omega
    · split
      · refine le_trans (ih _ now (idx + 1) oks) ?_
        dsimp only
        omega
      · refine le_trans (ih _ now (idx + 1) oks) ?_
        dsimp only
        omega

/-- `purchaseParallel` only adds a backend update on top of the item loop:
the agent state is the loop's agent state. -/
theorem purchaseParallel_agent (cfg : AgentConfig) (w : World) (infos : List ContentInfo)
    (now : Nat) (oks : Nat → Bool) :
    (purchaseParallel cfg w infos now oks).2.agent =
      (runParallelItems cfg w infos now 0 oks).2.2.agent := by
  unfold purchaseParallel
  dsimp only
  split
  · rfl
  · split
    · rfl
    · split <;> rfl

/-- `purchaseBatchAtomic` either leaves `spentToday` unchanged (memo throw
or rejected batch) or adds exactly the total price (confirmed batch). -/
theorem purchaseBatchAtomic_spentToday (cfg : AgentConfig) (w : World)
    (infos : List ContentInfo) (now : Nat) (batchOk : Bool) :
    (purchaseBatchAtomic cfg w infos now batchOk).2.agent.spentToday = w.agent.spentToday ∨
    (purchaseBatchAtomic cfg w infos now batchOk).2.agent.spentToday =
      w.agent.spentToday + (infos.map (·.price)).sum := by
  unfold purchaseBatchAtomic
  dsimp only
  split
  · left; rfl
  · split
    · left; rfl
    · split
      · right; rfl
      · right; rfl

/-- Every branch of `purchaseBatch` keeps `spentToday` within the daily
limit: the aggregate guard bounds what any strategy can add. -/
theorem purchaseBatch_spentToday_le (cfg : AgentConfig) (w : World) (env : BatchEnv)
    (h : w.agent.spentToday ≤ cfg.dailySpendingLimit) :
    (purchaseBatch cfg w env).2.agent.spentToday ≤ cfg.dailySpendingLimit := by
  have hr : (resetDailySpendingIfNeeded w.agent env.now).spentToday ≤ cfg.dailySpendingLimit :=
    resetDaily_spentToday_le env.now h
  unfold purchaseBatch
  dsimp only
  split
  · exact hr
  · split
    · exact hr
    · rename_i hguard
      simp only [Int.ofNat_eq_natCast] at hguard
      split
      · rw [purchaseParallel_agent]
        have hb := runParallelItems_spentToday_le cfg
          (batchInfos w.backend (batchToPurchase cfg w.backend env))
          { agent := resetDailySpendingIfNeeded w.agent env.now,
            backend := w.backend, rail := w.rail } env.now 0 env.oks
        dsimp only at hb
        omega
      · split
        · rcases purchaseBatchAtomic_spentToday cfg
            { agent := resetDailySpendingIfNeeded w.agent env.now,
              backend := w.backend, rail := w.rail }
            (batchInfos w.backend (batchToPurchase cfg w.backend env)) env.now env.batchOk
            with hs | hs <;> dsimp only at hs <;> omega
        · exact purchaseSequential_spentToday_le cfg _
            { agent := resetDailySpendingIfNeeded w.agent env.now,
              backend := w.backend, rail := w.rail } hr

theorem runCall_spentToday_le (cfg : AgentConfig) (w : World) (c : AgentCall)
    (h : w.agent.spentToday ≤ cfg.dailySpendingLimit) :
    (runCall cfg w c).agent.spentToday ≤ cfg.dailySpendingLimit := by
  cases c with
  | single env => exact purchaseLicense_spentToday_le cfg w env h
  | batch env => exact purchaseBatch_spentToday_le cfg w env h

theorem runCalls_spentToday_le (cfg : AgentConfig) (calls : List AgentCall) :
    ∀ w : World, w.agent.spentToday ≤ cfg.dailySpendingLimit →
      (runCalls cfg w calls).agent.spentToday ≤ cfg.dailySpendingLimit := by
  induction calls with
  | nil => intro w h; exact h
  | cons c rest ih =>
    intro w h
    exact ih (runCall cfg w c) (runCall_spentToday_le cfg w c h)

/-- A single purchase that would push `spentToday` over the daily limit
cannot succeed, submits nothing to the rail, and leaves the agent state as
the rolling reset left it. -/
theorem purchaseLicense_overspend_rejected (cfg : AgentConfig) (w : World)
    (env : PurchaseEnv) (c : Backend.ContentEntry)
    (hc : lookupKV w.backend.contentRegistry env.contentHash = some c)
    (hover : cfg.dailySpendingLimit <
      (resetDailySpendingIfNeeded w.agent env.now).spentToday + c.price) :
    (purchaseLicense cfg w env).2 =
      { w with agent := resetDailySpendingIfNeeded w.agent env.now } ∧
    ∀ p, (purchaseLicense cfg w env).1 ≠ .success p := by
  unfold purchaseLicense
  dsimp only
  split
  · exact ⟨rfl, by intro p hp; exact SingleOutcome.noConfusion hp⟩
  · split
    · rename_i hnone
      rw [hc] at hnone
      exact Option.noConfusion hnone
    · rename_i content hsome
      rw [hc] at hsome
      obtain rfl : content = c := (Option.some.injEq _ _).mp hsome.symm
      by_cases hmax : content.price > cfg.maxPricePerItem
      · rw [if_pos hmax]
        exact ⟨rfl, by intro p hp; exact SingleOutcome.noConfusion hp⟩
      · rw [if_neg hmax, if_pos (show
          (resetDailySpendingIfNeeded w.agent env.now).spentToday + content.price >
            cfg.dailySpendingLimit by omega)]
        exact ⟨rfl, by intro p hp; exact SingleOutcome.noConfusion hp⟩

/-- The parallel item loop never appends to `purchaseHistory`: it only
touches `spentToday` and the rail log. -/
theorem runParallelItems_purchaseHistory (cfg : AgentConfig) (infos : List ContentInfo) :
    ∀ (w : World) (now idx : Nat) (oks : Nat → Bool),
      (runParallelItems cfg w infos now idx oks).2.2.agent.purchaseHistory =
        w.agent.purchaseHistory := by
  induction infos with
  | nil => intro w now idx oks; rfl
  | cons info rest ih =>
    intro w now idx oks
    rw [runParallelItems.eq_def]
    dsimp only
    split
    · dsimp only
      rw [ih]
    · split
      · dsimp only
        rw [ih]
      · dsimp only
        rw [ih]

/-- A batch whose remaining items' total price would push `spentToday`
over the daily limit is rejected by the aggregate guard before any
strategy (and hence any transfer) runs. -/
theorem purchaseBatch_overspend_rejected (cfg : AgentConfig) (w : World) (env : BatchEnv)
    (hne : (batchToPurchase cfg w.backend env).isEmpty = false)
    (hover : Int.ofNat cfg.dailySpendingLimit -
        Int.ofNat (resetDailySpendingIfNeeded w.agent env.now).spentToday <
      Int.ofNat ((batchInfos w.backend (batchToPurchase cfg w.backend env)).map (·.price)).sum) :
    purchaseBatch cfg w env =
      (.error .dailyCeilingExceeded,
       { w with agent := resetDailySpendingIfNeeded w.agent env.now }) := by
  unfold purchaseBatch
  dsimp only
  rw [if_neg (by simp [hne]), if_pos hover]

end Agent

/-! ### Claim theorems -/

section ClaimsSymbolic

open Backend Contract Agent

attribute [local irreducible] encodeMemo

/-- C1: in the atomic-batch settlement strategy, when the bundled
submission is not confirmed (which is what the rail reports when any one
of the N bundled transfers is invalid), the whole call fails with an
error, no purchase-history record is appended, `spentToday` is unchanged,
and the backend — content registry and license store alike — is untouched,
so zero licenses are recorded for all N items. -/
theorem C1_atomic_batch_all_or_nothing (cfg : AgentConfig) (w : World)
    (infos : List ContentInfo) (now : Nat) :
    (∃ e, (purchaseBatchAtomic cfg w infos now false).1 = .error e) ∧
    (purchaseBatchAtomic cfg w infos now false).2.agent.purchaseHistory
        = w.agent.purchaseHistory ∧
    (purchaseBatchAtomic cfg w infos now false).2.agent.spentToday = w.agent.spentToday ∧
    (purchaseBatchAtomic cfg w infos now false).2.backend = w.backend := by
  unfold purchaseBatchAtomic
  dsimp only
  split
  · exact ⟨⟨.memoEncodingFailed, rfl⟩, rfl, rfl, rfl⟩
  · exact ⟨⟨.batchFailed, rfl⟩, rfl, rfl, rfl⟩

/-- C2: starting within the daily ceiling, `spentToday` stays within the
ceiling after any sequence of orchestrator calls; moreover a single
purchase that would overshoot cannot succeed, submits no transfer, and
leaves the agent exactly as the rolling reset left it, and a batch whose
total would overshoot is rejected by the aggregate guard the same way. -/
theorem C2_daily_ceiling_invariant (cfg : AgentConfig) (w : World) (calls : List AgentCall)
    (h : w.agent.spentToday ≤ cfg.dailySpendingLimit) :
    (runCalls cfg w calls).agent.spentToday ≤ cfg.dailySpendingLimit ∧
    (∀ (env : PurchaseEnv) (c : ContentEntry),
      lookupKV w.backend.contentRegistry env.contentHash = some c →
      cfg.dailySpendingLimit <
          (resetDailySpendingIfNeeded w.agent env.now).spentToday + c.price →
      (purchaseLicense cfg w env).2 =
          { w with agent := resetDailySpendingIfNeeded w.agent env.now } ∧
        ∀ p, (purchaseLicense cfg w env).1 ≠ .success p) ∧
    (∀ env : BatchEnv,
      (batchToPurchase cfg w.backend env).isEmpty = false →
      Int.ofNat cfg.dailySpendingLimit -
          Int.ofNat (resetDailySpendingIfNeeded w.agent env.now).spentToday <
        Int.ofNat ((batchInfos w.backend
          (batchToPurchase cfg w.backend env)).map (·.price)).sum →
      purchaseBatch cfg w env =
        (.error .dailyCeilingExceeded,
         { w with agent := resetDailySpendingIfNeeded w.agent env.now })) := by
  refine ⟨runCalls_spentToday_le cfg calls w h, ?_, ?_⟩
  · intro env c hc hover
    exact purchaseLicense_overspend_rejected cfg w env c hc hover
  · intro env hne hover
    exact purchaseBatch_overspend_rejected cfg w env hne hover

/-- C3 (amended): the on-chain `registerContent` behaves as the claim
states — `alreadyRegistered` when the fingerprint has an owner (state
unchanged), `invalidPrice` for a zero price (state unchanged), and
otherwise it creates exactly the fresh entry — while the backend demo
route performs neither check: any request passing the falsy-field guard
overwrites whatever entry the fingerprint had. -/
theorem C3_register_content_checks (st : CState) (sender contentHash price : Nat)
    (uri : String) :
    ((getEntry st contentHash).contentOwner ≠ 0 →
      Contract.registerContent st sender contentHash price uri = (.alreadyRegistered, st)) ∧
    ((getEntry st contentHash).contentOwner = 0 → price = 0 →
      Contract.registerContent st sender contentHash price uri = (.invalidPrice, st)) ∧
    ((getEntry st contentHash).contentOwner = 0 → 0 < price →
      (Contract.registerContent st sender contentHash price uri).1 = .ok ∧
      getEntry (Contract.registerContent st sender contentHash price uri).2 contentHash =
        { price := price, contentOwner := sender, contentURI := uri, active := true,
          totalRevenue := 0, accessCount := 0 }) ∧
    (∀ (bst : BackendState) (hsh : String) (pr : Nat) (u o : String) (now : Nat),
      ¬(hsh = "" ∨ pr = 0 ∨ u = "" ∨ o = "") →
      registerContentRoute bst hsh pr u o now = .ok { bst with
        contentRegistry := setKV bst.contentRegistry hsh
          ⟨hsh, pr, o, u, true, 0, 0, now⟩ }) := by
  refine ⟨?_, ?_, ?_, ?_⟩
  · intro hreg
    unfold Contract.registerContent
    rw [if_pos hreg]
  · intro hreg hp
    unfold Contract.registerContent
    rw [if_neg (by simp [hreg]), if_pos hp]
  · intro hreg hp
    unfold Contract.registerContent
    rw [if_neg (by simp [hreg]), if_neg (by omega)]
    refine ⟨rfl, ?_⟩
    unfold getEntry
    dsimp only
    rw [lookupKV_setKV_self]
    rfl
  · intro bst hsh pr u o now hok
    unfold registerContentRoute
    rw [if_neg hok]

/-- C4: the contract's `hasValidLicense` returns true exactly when the
stored license is active and its expiry is strictly in the future, so a
license whose expiry has passed is invalid even if never deactivated; the
backend's `checkLicense` (whose stored records carry no active flag and
are all created active) likewise answers positively exactly for a stored
record with a strictly-future expiry, and returns nothing once the expiry
has passed. -/
theorem C4_license_validity (st : CState) (user contentHash now : Nat)
    (b : BackendState) (agentAddress hsh : String) :
    (Contract.hasValidLicense st user contentHash now = true ↔
      (Contract.getLicense st user contentHash).active = true ∧
        now < (Contract.getLicense st user contentHash).expiry) ∧
    ((Contract.getLicense st user contentHash).expiry ≤ now →
      Contract.hasValidLicense st user contentHash now = false) ∧
    ((Backend.checkLicense b agentAddress hsh now).isSome = true ↔
      ∃ l, lookupKV b.licenses (licenseKey agentAddress hsh) = some l ∧ now < l.expiry) ∧
    (∀ l, lookupKV b.licenses (licenseKey agentAddress hsh) = some l →
      l.expiry ≤ now → Backend.checkLicense b agentAddress hsh now = none) := by
  refine ⟨?_, ?_, ?_, ?_⟩
  · simp [Contract.hasValidLicense]
  · intro hexp
    simp [Contract.hasValidLicense]
    intro _
    omega
  · unfold Backend.checkLicense
    rcases hl : lookupKV b.licenses (licenseKey agentAddress hsh) with _ | l
    · simp
    · dsimp only
      by_cases he : l.expiry > now
      · rw [if_pos he]
        exact ⟨fun _ => ⟨l, rfl, he⟩, fun _ => rfl⟩
      · rw [if_neg he]
        constructor
        · intro hx
          exact absurd hx (by simp)
        · rintro ⟨l', hl', hlt⟩
          obtain rfl : l = l' := by simpa using hl'
          exact absurd hlt he
  · intro l hl hexp
    unfold Backend.checkLicense
    rw [hl]
    dsimp only
    rw [if_neg (by omega)]

/-- C5 (amended): the single-item path `purchaseLicense` — and hence the
sequential strategy, which invokes it per item — rejects an item priced
above `maxPricePerItem` with `perItemCeilingExceeded` before any transfer
is submitted, leaving the world unchanged apart from the rolling reset.
(The parallel and atomic-batch strategies check only the aggregate daily
ceiling; the counterexample shows a parallel item far above the per-item
ceiling being submitted and settled.) -/
theorem C5_per_item_ceiling_single_path (cfg : AgentConfig) (w : World)
    (env : PurchaseEnv) (c : ContentEntry)
    (hLic : (checkLicense w.backend cfg.address env.contentHash env.now).isSome = false)
    (hc : lookupKV w.backend.contentRegistry env.contentHash = some c)
    (hp : cfg.maxPricePerItem < c.price) :
    purchaseLicense cfg w env =
      (.err .perItemCeilingExceeded,
       { w with agent := resetDailySpendingIfNeeded w.agent env.now }) := by
  unfold purchaseLicense
  dsimp only
  rw [hLic, hc]
  dsimp only [Bool.false_and]
  rw [if_neg (by simp), if_pos hp]

/-- C6 (amended): the rolling reset fires exactly when strictly more than
24 hours have elapsed since the window start: then `spentToday` becomes 0
and the window start becomes `now`, regardless of the prior spent value;
at `now = windowStart + 24h` or earlier nothing is reset. -/
theorem C6_rolling_reset_strict (a : AgentState) (now : Nat) :
    (oneDay < now - a.lastReset →
      resetDailySpendingIfNeeded a now = { a with spentToday := 0, lastReset := now }) ∧
    (now - a.lastReset ≤ oneDay → resetDailySpendingIfNeeded a now = a) := by
  constructor
  · intro h
    unfold resetDailySpendingIfNeeded
    rw [if_pos h]
  · intro h
    unfold resetDailySpendingIfNeeded
    rw [if_neg (by omega)]

/-- C7 (amended): in the sequential strategy a thrown item error aborts
the whole loop at once: the call returns that error together with the
state reached after the failing item, independently of the remaining
items, which are never attempted. -/
theorem C7_sequential_error_aborts (cfg : AgentConfig) (w : World) (it : SeqItem)
    (rest : List SeqItem) (e : AgentError)
    (h : (purchaseLicense cfg w (seqEnv it)).1 = .err e) :
    purchaseSequential cfg w (it :: rest) =
      (.error e, (purchaseLicense cfg w (seqEnv it)).2) := by
  rw [purchaseSequential.eq_def]
  dsimp only
  rcases hp : purchaseLicense cfg w (seqEnv it) with ⟨o, w1⟩
  rw [hp] at h
  simp only at h
  subst h
  rfl

end ClaimsSymbolic

section ClaimsClosed

open Backend Contract Agent

/-- C2 witness: a fresh agent within its ceiling stays within the ceiling
after a successful concrete purchase. -/
theorem C2_daily_ceiling_invariant_witness :
    (runCalls cfgC2 worldC2 callsC2).agent.spentToday ≤ cfgC2.dailySpendingLimit :=
  (C2_daily_ceiling_invariant cfgC2 worldC2 callsC2 (by decide)).1

/-- C3 counterexample: re-registering an existing fingerprint through the
backend route does not fail with AlreadyRegistered — it succeeds and
replaces the entry, resetting its accumulated revenue and access count. -/
theorem C3_register_route_overwrites :
    (registerContentRoute regBackendC3 "h" 5 "u2" "o2" 99).toOption =
      some { contentRegistry := [("h", ⟨"h", 5, "o2", "u2", true, 0, 0, 99⟩)],
             licenses := [] } := by decide

/-- C3 witness: the contract rejects a duplicate registration with
`alreadyRegistered`, leaving the state unchanged. -/
theorem C3_register_content_checks_witness :
    Contract.registerContent contractStateC3 3 7 11 "v" = (.alreadyRegistered, contractStateC3) :=
  (C3_register_content_checks contractStateC3 3 7 11 "v").1 (by decide)

/-- C4 witness: a license that is still marked active but whose expiry
equals the current time is reported invalid. -/
theorem C4_license_validity_witness :
    Contract.hasValidLicense contractStateC4 1 7 100 = false :=
  (C4_license_validity contractStateC4 1 7 100 emptyBackend "a" "h").2.1 (by decide)

/-- C5 counterexample: with a per-item ceiling of 10, a parallel batch
containing an item priced 500 submits that transfer to the rail and
reports it successful — the per-item ceiling is not enforced on the
parallel path, contradicting the claim that every strategy rejects such
items before their transfer is attempted. -/
theorem C5_parallel_ignores_per_item_ceiling :
    (purchaseBatch cfgC5 worldC5 envC5).1.toOption
        = some (.parallel [⟨"h1", 500, true⟩] 1 0) ∧
    railTransferAmounts (purchaseBatch cfgC5 worldC5 envC5).2.rail = [500] ∧
    cfgC5.maxPricePerItem = 10 := by decide

/-- C5 witness: the single-item path rejects an item priced 500 against a
per-item ceiling of 10 with `perItemCeilingExceeded`, submitting nothing. -/
theorem C5_per_item_ceiling_single_path_witness :
    purchaseLicense cfgC5 worldC5 ⟨"h1", false, 0, true⟩ =
      (.err .perItemCeilingExceeded,
       { worldC5 with agent := resetDailySpendingIfNeeded worldC5.agent 0 }) :=
  C5_per_item_ceiling_single_path cfgC5 worldC5 ⟨"h1", false, 0, true⟩
    ⟨"h1", 500, "o", "u", true, 0, 0, 0⟩ (by decide) (by decide) (by decide)

/-- C6 counterexample: at exactly 24 hours after the window start
(`now = T + 24h`, with `T = 0`), the reset does not fire — the spent
amount stays 5 — contradicting the claim that `now ≥ T + 24h` resets it. -/
theorem C6_no_reset_at_exact_boundary :
    resetDailySpendingIfNeeded ⟨5, 0, []⟩ oneDay = ⟨5, 0, []⟩ := by decide

/-- C6 witness: one millisecond past the 24-hour boundary the reset fires,
zeroing the spent amount and moving the window start to `now`. -/
theorem C6_rolling_reset_strict_witness :
    resetDailySpendingIfNeeded ⟨7, 0, []⟩ (oneDay + 1) =
      { (⟨7, 0, []⟩ : AgentState) with spentToday := 0, lastReset := oneDay + 1 } :=
  (C6_rolling_reset_strict ⟨7, 0, []⟩ (oneDay + 1)).1 (by decide)

/-- C7 counterexample: two in-budget items, the rail rejecting only the
first; the sequential call returns an error rather than a two-outcome
list, exactly one transfer was submitted (item 2 was never attempted,
though it succeeds when run on its own), and no license was recorded. -/
theorem C7_sequential_failure_blocks_rest :
    (purchaseSequential cfgC7 worldC7 [itemAC7, itemBC7]).1.toOption.isSome = false ∧
    railTransferAmounts (purchaseSequential cfgC7 worldC7 [itemAC7, itemBC7]).2.rail = [10] ∧
    (purchaseSequential cfgC7 worldC7 [itemAC7, itemBC7]).2.backend.licenses.length = 0 ∧
    (purchaseSequential cfgC7 worldC7 [itemBC7]).1.toOption.isSome = true := by decide

/-- C7 witness: with the first item's transfer rejected by the rail, the
sequential call aborts with that error and the post-first-item state. -/
theorem C7_sequential_error_aborts_witness :
    purchaseSequential cfgC7 worldC7 [itemAC7, itemBC7] =
      (.error .transferFailed, (purchaseLicense cfgC7 worldC7 (seqEnv itemAC7)).2) :=
  C7_sequential_error_aborts cfgC7 worldC7 itemAC7 [itemBC7] .transferFailed (by decide)

/-- C8 counterexample: in the 5-item parallel scenario with item 3 forced
to fail, the result does report 4 successes and 1 failure, but zero
purchase-history records exist afterwards — not the 4 the claim states. -/
theorem C8_parallel_writes_no_purchase_records :
    (purchaseBatch cfgC8 worldC8 envC8).1.toOption
        = some (.parallel [⟨"h1", 10, true⟩, ⟨"h2", 10, true⟩, ⟨"h3", 10, false⟩,
                           ⟨"h4", 10, true⟩, ⟨"h5", 10, true⟩] 4 1) ∧
    (purchaseBatch cfgC8 worldC8 envC8).2.agent.purchaseHistory.length = 0 ∧
    (purchaseBatch cfgC8 worldC8 envC8).2.agent.purchaseHistory.length ≠ 4 := by decide

/-- C8 (amended): the parallel strategy never appends purchase-history
records — for any inputs the history is exactly what it was — and in the
5-item scenario with item 3 failing it reports 4 successes and 1 failure,
records 4 backend licenses, and adds the 4 successful prices (40) to
`spentToday`, while the purchase history stays empty. -/
theorem C8_parallel_partial_tolerance :
    (∀ (cfg : AgentConfig) (w : World) (infos : List ContentInfo) (now : Nat)
        (oks : Nat → Bool),
      (purchaseParallel cfg w infos now oks).2.agent.purchaseHistory =
        w.agent.purchaseHistory) ∧
    (purchaseBatch cfgC8 worldC8 envC8).2.backend.licenses.length = 4 ∧
    (purchaseBatch cfgC8 worldC8 envC8).2.agent.spentToday = 40 := by
  refine ⟨?_, by decide, by decide⟩
  intro cfg w infos now oks
  rw [purchaseParallel_agent]
  exact runParallelItems_purchaseHistory cfg infos w now 0 oks

/-- C9: evaluated at a registered content of price 50, the batch route
adds 50 to its revenue and writes a license expiring 30 days later, but
leaves its access count at 0, whereas the single-license route increments
the access count to 1 — the batch path does not perform the accessCount
increment the claim (and the contract's `purchaseBatchLicense`) requires. -/
theorem C9_batch_route_skips_access_count :
    ((licenseBatch backendC9 ["h"] "agent" "tx" 1000).toOption.map fun r =>
      ((lookupKV r.1.contentRegistry "h").map fun c => (c.totalRevenue, c.accessCount),
       (lookupKV r.1.licenses (licenseKey "agent" "h")).map (·.expiry)))
      = some (some (50, 0), some (1000 + thirtyDays)) ∧
    ((licenseBuy backendC9 "h" "agent" "tx" 1000).toOption.map fun b =>
      (lookupKV b.contentRegistry "h").map fun c => (c.totalRevenue, c.accessCount))
      = some (some (50, 1)) := by decide

/-- C10: the memo encoding is a function of (hash, timestamp, index), but
it does not always succeed: for a realistic content hash (20-character
prefix) and a 13-digit millisecond timestamp the derived 44-character
string exceeds the 32-byte pad size and the encoding throws
(`viem.pad` SizeExceedsPaddingSizeError, modelled as `none`); only derived
strings of at most 32 bytes yield the fixed 32-byte tag. -/
theorem C10_memo_encoding_throws_on_long_input :
    encodeMemo "0xabcdef0123456789abcdef0123456789" 1700000000000 0 = none ∧
    (encodeMemo "h" 0 0).map List.length = some 32 := by decide

end ClaimsClosed

end OpenPayAI

